import Mathlib

/-!
Verification of the contracts pallet top level (frame/contracts/src/lib.rs).

The development shallowly embeds the pallet's address derivation, the
deprecated-weight compatibility path, the revert-promotion logic of the
dispatchables, the deletion-queue hooks, the startup integrity check and the
storage-touching operations `set_code`, `bare_upload_code` and `get_storage`.

Machine integers are modelled as `Nat` (the source values are `u32`/`u64` and
every operation below stays within range or is explicitly saturating, mirroring
the `saturating_*` calls of the source). Byte strings are `List Nat`.
Account ids, code hashes and balances are modelled as `Nat`.

Parts of the repository that the claims depend on but whose code is not in the
staged sources (the wasm code-cache internals and the storage module) are
modelled from the spec and marked as such in their doc comments.
-/

namespace Contracts

/- ========================================================================
   Address derivation (lib.rs lines 187-199, `DefaultAddressGenerator`).

   The source computes
     `(b"contract_addr_v1", deploying_address, code_hash, input_data, salt)
        .using_encoded(T::Hashing::hash)`
   i.e. it hashes the SCALE encoding of that tuple. SCALE encodes a tuple as
   the concatenation of the encodings of its components; a fixed-width byte
   array (the 16-byte magic, an `AccountId32`, an `H256`) encodes as its raw
   bytes, while a byte slice (`input_data`, `salt`) is preceded by the SCALE
   compact encoding of its length. The digest is then decoded through
   `TrailingZeroInput`, which pads with zero bytes when the digest is shorter
   than the account id.
   ======================================================================== -/

/-- The 16 ASCII bytes of the domain separator of the address formula. -/
def addrMagic : List Nat :=
  [99, 111, 110, 116, 114, 97, 99, 116, 95, 97, 100, 100, 114, 95, 118, 49]

/-- Number of bytes of the little-endian representation of `n` (1 for 0). -/
def byteLenOf (n : Nat) : Nat := Nat.log 256 n + 1

/-- First argument many little-endian base-256 digits of the second. -/
def natLEBytes : Nat → Nat → List Nat
  | 0, _ => []
  | k + 1, n => n % 256 :: natLEBytes k (n / 256)

/-- SCALE compact encoding of a natural number (the length prefixes of byte
slices). Mode bits are the two lowest bits of the first byte. -/
def compactEnc (n : Nat) : List Nat :=
  if n < 64 then
    [n * 4]
  else if n < 16384 then
    [(n * 4 + 1) % 256, (n * 4 + 1) / 256]
  else if n < 1073741824 then
    [(n * 4 + 2) % 256, (n * 4 + 2) / 256 % 256,
     (n * 4 + 2) / 65536 % 256, (n * 4 + 2) / 16777216 % 256]
  else
    ((byteLenOf n - 4) * 4 + 3) :: natLEBytes (byteLenOf n) n

/-- A tuple component as SCALE sees it: fixed-width raw bytes (arrays, account
ids, hashes) or a length-prefixed byte slice. -/
inductive ScaleVal
  | fixedBytes (bytes : List Nat)
  | varBytes (bytes : List Nat)

/-- SCALE encoding of one component. -/
def scaleEncode : ScaleVal → List Nat
  | ScaleVal.fixedBytes l => l
  | ScaleVal.varBytes l => compactEnc l.length ++ l

/-- SCALE encoding of a tuple: concatenation of component encodings. -/
def encodeTuple (vs : List ScaleVal) : List Nat := (vs.map scaleEncode).flatten

/-- The byte string hashed by `DefaultAddressGenerator::generate_address`:
the SCALE encoding of the five-component tuple of the source. -/
def addressEntropy (deployer codeHash input salt : List Nat) : List Nat :=
  encodeTuple
    [ScaleVal.fixedBytes addrMagic, ScaleVal.fixedBytes deployer,
     ScaleVal.fixedBytes codeHash, ScaleVal.varBytes input, ScaleVal.varBytes salt]

/-- `Decode::decode(&mut TrailingZeroInput::new(digest))` for a fixed-width
account id of `len` bytes: the first `len` bytes of the digest, padded with
trailing zeros when the digest is shorter. -/
def decodeTrailingZeros (len : Nat) (digest : List Nat) : List Nat :=
  (digest ++ List.replicate len 0).take len

/-- `DefaultAddressGenerator::generate_address` (lib.rs 188-198), over an
abstract hasher `H` (the chain's configured `T::Hashing`) and account id
width `accountLen`. -/
def generate_address (H : List Nat → List Nat) (accountLen : Nat)
    (deployer codeHash input salt : List Nat) : List Nat :=
  decodeTrailingZeros accountLen (H (addressEntropy deployer codeHash input salt))

/-- `Pallet::contract_address` (lib.rs 1138-1145): delegates to the configured
address generator, here the default one. -/
def contract_address (H : List Nat → List Nat) (accountLen : Nat)
    (deployer codeHash input salt : List Nat) : List Nat :=
  generate_address H accountLen deployer codeHash input salt

/-- The address formula as the spec words it, for comparison with the source:
the hash of the plain byte concatenation of the five components, with no
length prefixes on `input` and `salt`. -/
def specPlainConcatAddress (H : List Nat → List Nat) (accountLen : Nat)
    (deployer codeHash input salt : List Nat) : List Nat :=
  decodeTrailingZeros accountLen (H (addrMagic ++ deployer ++ codeHash ++ input ++ salt))

/- ========================================================================
   Weights (sp_weights::Weight): two dimensions, u64 components, with the
   saturating operations the source uses.
   ======================================================================== -/

/-- Largest u64 value. -/
def u64Max : Nat := 2 ^ 64 - 1

/-- u64 saturating addition. -/
def satAdd64 (a b : Nat) : Nat := min (a + b) u64Max

/-- A 2D weight: computation time and proof size (both u64). -/
structure Weight where
  refTime : Nat
  proofSize : Nat
deriving DecidableEq, Repr

/-- `Weight::saturating_add`, componentwise. -/
def weightAdd (a b : Weight) : Weight :=
  ⟨satAdd64 a.refTime b.refTime, satAdd64 a.proofSize b.proofSize⟩

/-- `Weight::saturating_sub`, componentwise (Nat subtraction saturates at 0). -/
def weightSub (a b : Weight) : Weight :=
  ⟨a.refTime - b.refTime, a.proofSize - b.proofSize⟩

/-- `Weight::min`, componentwise. -/
def weightMin (a b : Weight) : Weight :=
  ⟨min a.refTime b.refTime, min a.proofSize b.proofSize⟩

/-- `Pallet::compat_weight_limit` (lib.rs 1296-1298): convert a 1D legacy gas
limit to a 2D weight. The source sets the proof size to
`u64::from(T::MaxCodeLen::get()) * 2`; `maxCodeLen` is a u32 so the
multiplication cannot overflow the u64. -/
def compat_weight_limit (maxCodeLen gasLimit : Nat) : Weight :=
  ⟨gasLimit, maxCodeLen * 2⟩

/-- The weight `call_old_weight` (lib.rs 460-476) hands to `Self::call`. -/
def call_old_weight_gas (maxCodeLen gasLimit : Nat) : Weight :=
  compat_weight_limit maxCodeLen gasLimit

/-- The weight `instantiate_with_code_old_weight` (lib.rs 488-506) hands to
`Self::instantiate_with_code`. -/
def instantiate_with_code_old_weight_gas (maxCodeLen gasLimit : Nat) : Weight :=
  compat_weight_limit maxCodeLen gasLimit

/-- The weight `instantiate_old_weight` (lib.rs 515-533) hands to
`Self::instantiate`. -/
def instantiate_old_weight_gas (maxCodeLen gasLimit : Nat) : Weight :=
  compat_weight_limit maxCodeLen gasLimit

/- ========================================================================
   Errors and execution results (lib.rs `Error` enum, primitives crate).
   ======================================================================== -/

/-- The pallet errors the claims mention (lib.rs 852-934). -/
inductive ContractsErr
  | ContractNotFound
  | CodeNotFound
  | StorageDepositLimitExhausted
  | StorageDepositNotEnoughFunds
  | DeletionQueueFull
  | ContractReverted
deriving DecidableEq, Repr

/-- A dispatch error: `BadOrigin` from the origin check or a pallet error. -/
inductive DispatchErr
  | BadOrigin
  | Contracts (e : ContractsErr)
deriving DecidableEq, Repr

/-- Which frame an execution error originated in. -/
inductive ErrorOrigin
  | Caller
  | Callee
deriving DecidableEq, Repr

/-- `ExecError`: a dispatch error plus its origin. -/
structure ExecError where
  error : DispatchErr
  origin : ErrorOrigin
deriving DecidableEq, Repr

/-- Modelled from the spec: `ExecReturnValue` of the primitives crate (not in
the staged sources): return flags and output data. Bit 0 of the flags is the
revert flag. -/
structure ExecReturnValue where
  flags : Nat
  data : List Nat
deriving DecidableEq, Repr

/-- Modelled from the spec: `ExecReturnValue::did_revert` — the revert bit of
the flags word. -/
def did_revert (r : ExecReturnValue) : Bool := Nat.testBit r.flags 0

/-- The revert-promotion step of the dispatchable `call` (lib.rs 663-667):
an `Ok` carrying the revert flag is replaced by `Error::ContractReverted`. -/
def call_result (res : Except ExecError ExecReturnValue) :
    Except ExecError ExecReturnValue :=
  match res with
  | Except.ok r =>
      if did_revert r then
        Except.error ⟨DispatchErr.Contracts ContractsErr.ContractReverted, ErrorOrigin.Caller⟩
      else Except.ok r
  | Except.error e => Except.error e

/-- The revert-promotion step of the dispatchable `instantiate`
(lib.rs 767-771): the result carries the new account id and the return value,
and an `Ok` whose return value has the revert flag becomes
`Error::ContractReverted`; on success only the return value is kept. -/
def instantiate_result (res : Except ExecError (Nat × ExecReturnValue)) :
    Except ExecError ExecReturnValue :=
  match res with
  | Except.ok ar =>
      if did_revert ar.2 then
        Except.error ⟨DispatchErr.Contracts ContractsErr.ContractReverted, ErrorOrigin.Caller⟩
      else Except.ok ar.2
  | Except.error e => Except.error e

/-- The identical promotion step of `instantiate_with_code` (lib.rs 725-729). -/
def instantiate_with_code_result (res : Except ExecError (Nat × ExecReturnValue)) :
    Except ExecError ExecReturnValue :=
  instantiate_result res

/-- `bare_call` (lib.rs 1019-1047) packaging of the internal result: the error
is projected to its dispatch error and an `Ok` with the revert flag stays `Ok`
(no promotion). -/
def bare_call_result (res : Except ExecError ExecReturnValue) :
    Except DispatchErr ExecReturnValue :=
  match res with
  | Except.ok r => Except.ok r
  | Except.error e => Except.error e.error

/-- `bare_instantiate` (lib.rs 1061-1092) packaging of the internal result:
account id and return value are kept and a revert is not promoted. -/
def bare_instantiate_result (res : Except ExecError (Nat × ExecReturnValue)) :
    Except DispatchErr (Nat × ExecReturnValue) :=
  match res with
  | Except.ok ar => Except.ok ar
  | Except.error e => Except.error e.error

/- ========================================================================
   Persisted state and configuration.
   ======================================================================== -/

/-- One record of `OwnerInfoOf`/`CodeStorage` (owner, deposit, refcount and
the instruction-weights version of the stored module). -/
structure CodeRecord where
  owner : Nat
  deposit : Nat
  refcount : Nat
  version : Nat
deriving DecidableEq, Repr

/-- The part of `ContractInfo` the claims need: trie id and code hash. -/
structure ContractRec where
  trieId : List Nat
  codeHash : Nat
deriving DecidableEq, Repr

/-- A deletion-queue entry: the trie id of a terminated contract, together
with the number of storage items still to purge from that trie (the items
live in the child trie; the count abstracts them for the lazy drain). -/
structure DelEntry where
  trieId : List Nat
  items : Nat
deriving DecidableEq, Repr

/-- Events of the pallet the claims mention (lib.rs 779-850). -/
inductive EventRec
  | ContractCodeUpdated (contract : Nat) (newCodeHash : Nat) (oldCodeHash : Nat)
deriving DecidableEq, Repr

/-- The persisted state of the pallet: the storage items declared in
lib.rs 936-988 plus the balance ledger the deposits act on. -/
structure ChainState where
  codes : Nat → Option CodeRecord
  contracts : Nat → Option ContractRec
  childTrie : List Nat → List Nat → Option (List Nat)
  free : Nat → Nat
  reserved : Nat → Nat
  deletionQueue : List DelEntry
  events : List EventRec

/-- Point update of a partial map. -/
def updateMap (f : Nat → Option CodeRecord) (k : Nat) (v : Option CodeRecord) :
    Nat → Option CodeRecord :=
  fun x => if x = k then v else f x

/-- Point update of a contracts map. -/
def updateContracts (f : Nat → Option ContractRec) (k : Nat) (v : Option ContractRec) :
    Nat → Option ContractRec :=
  fun x => if x = k then v else f x

/-- Point update of a balance map. -/
def updateBal (f : Nat → Nat) (k : Nat) (v : Nat) : Nat → Nat :=
  fun x => if x = k then v else f x

/-- The configuration constants the claims need. -/
structure Params where
  depth : Nat
  maxBlock : Weight
  dwl : Weight
  base : Weight
  itemWeight : Nat
  maxKeyLen : Nat

/-- The origin of a dispatchable. -/
inductive OriginKind
  | Root
  | Signed (who : Nat)
  | NoOrigin
deriving DecidableEq, Repr

/- ========================================================================
   Code cache operations used by `set_code` and `bare_upload_code`.
   ======================================================================== -/

/-- Modelled from the spec: `PrefabWasmModule::add_user` (wasm module, not in
the staged sources) — bump the refcount of the code entry, failing with
`CodeNotFound` when no entry exists (lib.rs 586-587: "Returns an error if
either the code_hash or dest do not exist"). -/
def add_user (st : ChainState) (h : Nat) : Except DispatchErr ChainState :=
  match st.codes h with
  | none => Except.error (DispatchErr.Contracts ContractsErr.CodeNotFound)
  | some r =>
      Except.ok { st with codes := updateMap st.codes h (some { r with refcount := r.refcount + 1 }) }

/-- Modelled from the spec: `PrefabWasmModule::remove_user` — decrement the
refcount; a decrement from 1 to 0 leaves the entry in place. -/
def remove_user (st : ChainState) (h : Nat) : ChainState :=
  match st.codes h with
  | none => st
  | some r =>
      { st with codes := updateMap st.codes h (some { r with refcount := r.refcount - 1 }) }

/-- `Pallet::set_code` (lib.rs 596-622): root only; `ContractNotFound` when
`dest` has no contract info; otherwise `add_user(new)` first, then
`remove_user(old)`, the `ContractCodeUpdated` event, and finally the code-hash
update of the contract info. An error leaves the state unchanged (the failed
dispatch is transactional). -/
def set_code (st : ChainState) (origin : OriginKind) (dest k2 : Nat) :
    Except DispatchErr Unit × ChainState :=
  match origin with
  | OriginKind.Root =>
      match st.contracts dest with
      | none => (Except.error (DispatchErr.Contracts ContractsErr.ContractNotFound), st)
      | some c =>
          match add_user st k2 with
          | Except.error e => (Except.error e, st)
          | Except.ok st1 =>
              let st2 := remove_user st1 c.codeHash
              let st3 := { st2 with
                events := st2.events ++ [EventRec.ContractCodeUpdated dest k2 c.codeHash] }
              let st4 := { st3 with
                contracts := updateContracts st3.contracts dest (some { c with codeHash := k2 }) }
              (Except.ok (), st4)
  | _ => (Except.error DispatchErr.BadOrigin, st)

/-- The result of `PrefabWasmModule::from_code`: a validated module with its
code hash, open deposit and instruction-weights version. Validation itself is
wasm-internal; the callers below take its outcome as a parameter. -/
structure ValidatedModule where
  codeHash : Nat
  openDeposit : Nat
  version : Nat
deriving DecidableEq, Repr

/-- Return value of a successful upload (`CodeUploadReturnValue`). -/
structure CodeUploadReturnValue where
  codeHash : Nat
  deposit : Nat
deriving DecidableEq, Repr

/-- Modelled from the spec: `PrefabWasmModule::store` (wasm module, not in the
staged sources). Spec 4.3: when the hash is not yet present, store the records
with refcount 0 and reserve the open deposit from the owner (which fails with
`StorageDepositNotEnoughFunds` when the owner's free balance is short,
lib.rs 912-913); a second upload of the same bytes only upgrades the stored
instruction-weights version and does not double-reserve. -/
def storeModule (st : ChainState) (owner : Nat) (m : ValidatedModule) :
    Except DispatchErr ChainState :=
  match st.codes m.codeHash with
  | some r =>
      Except.ok { st with
        codes := updateMap st.codes m.codeHash (some { r with version := max r.version m.version }) }
  | none =>
      if m.openDeposit ≤ st.free owner then
        Except.ok { st with
          codes := updateMap st.codes m.codeHash
            (some ⟨owner, m.openDeposit, 0, m.version⟩),
          free := updateBal st.free owner (st.free owner - m.openDeposit),
          reserved := updateBal st.reserved owner (st.reserved owner + m.openDeposit) }
      else Except.error (DispatchErr.Contracts ContractsErr.StorageDepositNotEnoughFunds)

/-- The tail of `bare_upload_code`: build the return value and store the
module; a store error leaves the state unchanged. -/
def uploadStore (st : ChainState) (origin : Nat) (m : ValidatedModule) :
    Except DispatchErr CodeUploadReturnValue × ChainState :=
  match storeModule st origin m with
  | Except.error e => (Except.error e, st)
  | Except.ok st1 => (Except.ok ⟨m.codeHash, m.openDeposit⟩, st1)

/-- `Pallet::bare_upload_code` (lib.rs 1098-1120): validate (`from_code`,
whose outcome is the `moduleRes` parameter), check the supplied storage
deposit limit against the module's open deposit
(`ensure!(limit >= deposit, StorageDepositLimitExhausted)`), then store the
module and return its code hash and deposit. -/
def bare_upload_code (st : ChainState) (origin : Nat)
    (moduleRes : Except DispatchErr ValidatedModule) (limit : Option Nat) :
    Except DispatchErr CodeUploadReturnValue × ChainState :=
  match moduleRes with
  | Except.error e => (Except.error e, st)
  | Except.ok m =>
      match limit with
      | some l =>
          if l < m.openDeposit then
            (Except.error (DispatchErr.Contracts ContractsErr.StorageDepositLimitExhausted), st)
          else uploadStore st origin m
      | none => uploadStore st origin m

/- ========================================================================
   get_storage (lib.rs 1122-1132).
   ======================================================================== -/

/-- `ContractAccessError` of the primitives crate. -/
inductive ContractAccessError
  | DoesntExist
  | KeyDecodingFailed
deriving DecidableEq, Repr

/-- `Pallet::get_storage` (lib.rs 1122-1132): look up the contract info
(`DoesntExist` when absent), bound-check the key against `MaxStorageKeyLen`
(`KeyDecodingFailed` when longer, before the trie is touched), then read the
child trie. A pure read: no state is returned because none is written. -/
def get_storage (maxKeyLen : Nat) (st : ChainState) (address : Nat) (key : List Nat) :
    Except ContractAccessError (Option (List Nat)) :=
  match st.contracts address with
  | none => Except.error ContractAccessError.DoesntExist
  | some c =>
      if key.length ≤ maxKeyLen then Except.ok (st.childTrie c.trieId key)
      else Except.error ContractAccessError.KeyDecodingFailed

/- ========================================================================
   Deletion queue: enqueue, lazy drain and the block hooks
   (lib.rs 358-382, 981-987).
   ======================================================================== -/

/-- Modelled from the spec: `Storage::queue_trie_for_deletion` (storage
module, not in the staged sources) — push the terminated contract's trie onto
the bounded queue; when the queue already holds `DeletionQueueDepth` entries
the push fails and `DeletionQueueFull` is surfaced to the calling contract
(lib.rs 896-901, 981-987). -/
def queue_trie_for_deletion (p : Params) (st : ChainState) (e : DelEntry) :
    Except DispatchErr Unit × ChainState :=
  if st.deletionQueue.length < p.depth then
    (Except.ok (), { st with deletionQueue := st.deletionQueue ++ [e] })
  else
    (Except.error (DispatchErr.Contracts ContractsErr.DeletionQueueFull), st)

/-- Modelled from the spec: the FIFO drain — delete items of the head entry
while the item budget lasts; a fully purged entry is popped, a partially
drained one remains at the head. Returns the remaining queue and the number
of items deleted. -/
def drainEntries : Nat → List DelEntry → List DelEntry × Nat
  | _, [] => ([], 0)
  | cap, e :: rest =>
      if e.items ≤ cap then
        let r := drainEntries (cap - e.items) rest
        (r.1, e.items + r.2)
      else
        ({ e with items := e.items - cap } :: rest, cap)

/-- Modelled from the spec: `Storage::process_deletion_queue_batch` (storage
module, not in the staged sources) — convert the weight limit into an item
budget, drain in FIFO order, and report the weight consumed. -/
def processDeletionQueueBatch (p : Params) (limit : Weight) (st : ChainState) :
    ChainState × Weight :=
  let cap := limit.refTime / p.itemWeight
  let r := drainEntries cap st.deletionQueue
  ({ st with deletionQueue := r.1 }, ⟨r.2 * p.itemWeight, 0⟩)

/-- `Hooks::on_initialize` (lib.rs 365-382), over an abstract batch processor
`pb` (the storage module's `process_deletion_queue_batch`): only when the
queue length has reached `DeletionQueueDepth` is the queue processed, under
the limit `max_block.saturating_sub(current).min(DeletionWeightLimit)`;
otherwise only the base weight is returned. Returns the new state and the
consumed weight. -/
def on_initialize_with (pb : Weight → ChainState → ChainState × Weight)
    (p : Params) (cur : Weight) (st : ChainState) : ChainState × Weight :=
  if p.depth ≤ st.deletionQueue.length then
    let limit := weightMin (weightSub p.maxBlock cur) p.dwl
    let r := pb limit st
    (r.1, weightAdd r.2 p.base)
  else (st, p.base)

/-- `Hooks::on_idle` (lib.rs 360-363): always process the queue under the
remaining-weight budget and add the base weight. -/
def on_idle_with (pb : Weight → ChainState → ChainState × Weight)
    (p : Params) (remaining : Weight) (st : ChainState) : ChainState × Weight :=
  let r := pb remaining st
  (r.1, weightAdd r.2 p.base)

/-- The operations of the reachable-state machine for the deletion-queue
bound: terminate-enqueue, the two block hooks (with the concrete batch
processor), `set_code` and `bare_upload_code`. -/
inductive Op
  | enqueue (e : DelEntry)
  | runInit (cur : Weight)
  | runIdle (remaining : Weight)
  | setCode (origin : OriginKind) (dest : Nat) (codeHash : Nat)
  | upload (origin : Nat) (moduleRes : Except DispatchErr ValidatedModule) (limit : Option Nat)

/-- One step of the state machine (the post-state; a failed operation leaves
the state unchanged). -/
def applyOp (p : Params) (st : ChainState) : Op → ChainState
  | Op.enqueue e => (queue_trie_for_deletion p st e).2
  | Op.runInit cur => (on_initialize_with (processDeletionQueueBatch p) p cur st).1
  | Op.runIdle remaining => (on_idle_with (processDeletionQueueBatch p) p remaining st).1
  | Op.setCode o d h => (set_code st o d h).2
  | Op.upload o m l => (bare_upload_code st o m l).2

/-- Run a sequence of operations. -/
def applyOps (p : Params) (ops : List Op) (st : ChainState) : ChainState :=
  ops.foldl (applyOp p) st

/- ========================================================================
   Integrity check (lib.rs 384-447).
   ======================================================================== -/

/-- `Hooks::integrity_test` (lib.rs 384-447) as a predicate: `true` when both
assertions pass, `false` when the hook panics. The source computes
`code_len_limit = ((MAX_RUNTIME_MEM/2) / max_call_depth - max_heap_size
- MAX_STACK_SIZE) / (18*4)` with u32 saturating (flooring) arithmetic and
asserts `MaxCodeLen < code_len_limit` and `MaxDebugBufferLen > 256`. -/
def integrity_test_passes (maxCodeLen maxHeapSize callStackSize maxDebugBufferLen : Nat) : Bool :=
  let maxRuntimeMem : Nat := 1024 * 1024 * 128
  let maxStackSize : Nat := 1024 * 1024
  let maxCallDepth : Nat := callStackSize + 1
  let codeLenLimit : Nat :=
    (maxRuntimeMem / 2 / maxCallDepth - maxHeapSize - maxStackSize) / (18 * 4)
  decide (maxCodeLen < codeLenLimit) && decide (maxDebugBufferLen > 256)

/-- The integrity condition as the claim words it: the exact-arithmetic
product inequality together with the debug-buffer bound. -/
def integritySpecFormula (maxCodeLen maxHeapSize callStackSize maxDebugBufferLen : Nat) : Prop :=
  (maxCodeLen * 72 + 1024 * 1024 + maxHeapSize) * (callStackSize + 1) < 1024 * 1024 * 128 / 2
    ∧ maxDebugBufferLen > 256

/- ========================================================================
   Concrete states for counterexamples and witnesses.
   ======================================================================== -/

/-- A fresh state: no code, no contracts, 100 units of free balance each. -/
def stFresh : ChainState where
  codes := fun _ => none
  contracts := fun _ => none
  childTrie := fun _ _ => none
  free := fun _ => 100
  reserved := fun _ => 0
  deletionQueue := []
  events := []

/-- A state whose accounts hold no free balance. -/
def stPoor : ChainState := { stFresh with free := fun _ => 0 }

/-- A validated module: code hash 1, open deposit 5, version 9. -/
def mFresh : ValidatedModule := ⟨1, 5, 9⟩

/-- A validated module: code hash 2, open deposit 5, version 9. -/
def mPoor : ValidatedModule := ⟨2, 5, 9⟩

/-- A state holding one contract at account 3 (trie [1], code hash 10) and
code entries 10 (refcount 1) and 20 (refcount 0). -/
def stSet : ChainState :=
  { stFresh with
    contracts := fun a => if a = 3 then some ⟨[1], 10⟩ else none,
    codes := fun h =>
      if h = 10 then some ⟨0, 0, 1, 1⟩
      else if h = 20 then some ⟨7, 4, 0, 1⟩
      else none }

/-- A state holding one contract at account 3 whose child trie maps key [9]
to value [42]. -/
def stGet : ChainState :=
  { stFresh with
    contracts := fun a => if a = 3 then some ⟨[1], 10⟩ else none,
    childTrie := fun t k => if t = [1] ∧ k = [9] then some [42] else none }

/-- A state whose deletion queue holds two one-item entries. -/
def stQueue : ChainState :=
  { stFresh with deletionQueue := [⟨[1], 1⟩, ⟨[2], 1⟩] }

/-- Parameters for the witnesses: queue depth 2, item weight 1. -/
def pWitness : Params := ⟨2, ⟨100, 100⟩, ⟨10, 10⟩, ⟨1, 1⟩, 1, 8⟩

/- ========================================================================
   Helper lemmas.
   ======================================================================== -/

/-- Componentwise minimum of weights is commutative. -/
theorem weightMin_comm (a b : Weight) : weightMin a b = weightMin b a := by
  simp [weightMin, Nat.min_comm]

/-- The lazy drain never grows the queue. -/
theorem drain_len (q : List DelEntry) : ∀ cap : Nat,
    ((drainEntries cap q).1).length ≤ q.length := by
  induction q with
  | nil => intro cap; simp [drainEntries]
  | cons e rest ih =>
      intro cap
      unfold drainEntries
      by_cases hc : e.items ≤ cap
      · rw [if_pos hc]
        exact le_trans (ih (cap - e.items)) (Nat.le_succ _)
      · rw [if_neg hc]
        simp

/-- A successful `add_user` touches only the code map. -/
theorem add_user_queue (st : ChainState) (k : Nat) (st1 : ChainState)
    (h : add_user st k = Except.ok st1) : st1.deletionQueue = st.deletionQueue := by
  unfold add_user at h
  split at h
  · exact absurd h (by simp)
  · injection h with h1
    rw [← h1]

/-- `remove_user` touches only the code map. -/
theorem remove_user_queue (st : ChainState) (k : Nat) :
    (remove_user st k).deletionQueue = st.deletionQueue := by
  unfold remove_user
  split <;> rfl

/-- `set_code` never touches the deletion queue. -/
theorem set_code_queue_eq (st : ChainState) (o : OriginKind) (d k2 : Nat) :
    (set_code st o d k2).2.deletionQueue = st.deletionQueue := by
  cases o with
  | Root =>
      cases hc : st.contracts d with
      | none => simp [set_code, hc]
      | some c =>
          cases ha : add_user st k2 with
          | error e => simp [set_code, hc, ha]
          | ok st1 =>
              have hq := add_user_queue st k2 st1 ha
              simp [set_code, hc, ha, remove_user_queue, hq]
  | Signed w => rfl
  | NoOrigin => rfl

/-- A successful `storeModule` touches only codes and balances. -/
theorem storeModule_queue (st : ChainState) (o : Nat) (m : ValidatedModule)
    (st1 : ChainState) (h : storeModule st o m = Except.ok st1) :
    st1.deletionQueue = st.deletionQueue := by
  unfold storeModule at h
  split at h
  · injection h with h1
    rw [← h1]
  · split at h
    · injection h with h1
      rw [← h1]
    · exact absurd h (by simp)

/-- `uploadStore` never touches the deletion queue. -/
theorem uploadStore_queue_eq (st : ChainState) (o : Nat) (m : ValidatedModule) :
    (uploadStore st o m).2.deletionQueue = st.deletionQueue := by
  unfold uploadStore
  cases hs : storeModule st o m with
  | error e => simp
  | ok st1 => simpa using storeModule_queue st o m st1 hs

/-- `bare_upload_code` never touches the deletion queue. -/
theorem upload_queue_eq (st : ChainState) (o : Nat)
    (m : Except DispatchErr ValidatedModule) (l : Option Nat) :
    (bare_upload_code st o m l).2.deletionQueue = st.deletionQueue := by
  cases m with
  | error e => cases l <;> rfl
  | ok v =>
      cases l with
      | none => exact uploadStore_queue_eq st o v
      | some lv =>
          by_cases hl : lv < v.openDeposit
          · simp [bare_upload_code, hl]
          · simp [bare_upload_code, hl, uploadStore_queue_eq]

/-- Every operation of the state machine preserves the queue bound. -/
theorem applyOp_bound (p : Params) (st : ChainState) (op : Op)
    (h : st.deletionQueue.length ≤ p.depth) :
    (applyOp p st op).deletionQueue.length ≤ p.depth := by
  cases op with
  | enqueue e =>
      simp only [applyOp, queue_trie_for_deletion]
      by_cases hl : st.deletionQueue.length < p.depth
      · rw [if_pos hl]
        simp
        omega
      · rw [if_neg hl]
        exact h
  | runInit cur =>
      simp only [applyOp, on_initialize_with]
      by_cases hl : p.depth ≤ st.deletionQueue.length
      · rw [if_pos hl]
        simp only [processDeletionQueueBatch]
        exact le_trans (drain_len st.deletionQueue _) h
      · rw [if_neg hl]
        exact h
  | runIdle remaining =>
      simp only [applyOp, on_idle_with, processDeletionQueueBatch]
      exact le_trans (drain_len st.deletionQueue _) h
  | setCode o d k =>
      simp only [applyOp]
      rw [set_code_queue_eq]
      exact h
  | upload o m l =>
      simp only [applyOp]
      rw [upload_queue_eq]
      exact h

/-- Any run of the state machine preserves the queue bound. -/
theorem applyOps_bound (p : Params) (ops : List Op) :
    ∀ st : ChainState, st.deletionQueue.length ≤ p.depth →
      (applyOps p ops st).deletionQueue.length ≤ p.depth := by
  induction ops with
  | nil => intro st h; exact h
  | cons op rest ih =>
      intro st h
      simp only [applyOps, List.foldl]
      exact ih _ (applyOp_bound p st op h)

/- ========================================================================
   Claim theorems.
   ======================================================================== -/

/-- Claim C1, counterexample. The claim says the address is the first bytes
of the hash of the PLAIN byte concatenation of the five components. The
source hashes the SCALE encoding of the tuple, in which `input_data` and
`salt` carry compact length prefixes. With the hasher that returns the bytes
after the fixed-width components (a legitimate instance of the abstract
hasher), deployer and code hash 32 zero bytes each, input [7] and empty salt,
the two formulas give different addresses: the source entropy continues with
the length-prefixed [4, 7, 0], the plain concatenation with [7]. -/
theorem C1_counterexample :
    contract_address (fun l => List.drop 80 l) 32
        (List.replicate 32 0) (List.replicate 32 0) [7] [] ≠
      specPlainConcatAddress (fun l => List.drop 80 l) 32
        (List.replicate 32 0) (List.replicate 32 0) [7] [] := by
  decide

/-- Claim C1, amended: for every hasher, account width, deployer, code hash,
input and salt, `Pallet::contract_address` equals the first bytes of the hash
of `"contract_addr_v1" ++ deployer ++ code_hash ++ compact(|input|) ++ input
++ compact(|salt|) ++ salt` — the SCALE encoding of the source's tuple, with
the digest padded with trailing zeros when shorter than the account id. -/
theorem C1_address_from_scale_tuple (H : List Nat → List Nat) (accountLen : Nat)
    (deployer codeHash input salt : List Nat) :
    contract_address H accountLen deployer codeHash input salt =
      decodeTrailingZeros accountLen
        (H (addrMagic ++ deployer ++ codeHash ++
            (compactEnc input.length ++ input) ++ (compactEnc salt.length ++ salt))) := by
  simp [contract_address, generate_address, addressEntropy, encodeTuple, scaleEncode,
    List.append_assoc]

/-- Claim C3, counterexample. The claim says the proof-size dimension of the
legacy 1D gas limit conversion equals `MaxCodeLen`; with `MaxCodeLen = 100`
and gas limit 7 the source produces proof size 200, not 100. -/
theorem C3_counterexample :
    (call_old_weight_gas 100 7).proofSize = 200 ∧
      (call_old_weight_gas 100 7).proofSize ≠ 100 := by
  decide

/-- Claim C3, amended: for every 1D gas limit `g` supplied to the deprecated
extrinsics, the 2D weight passed on to execution has `ref_time = g` and
`proof_size = 2 * MaxCodeLen` (the legacy path approximates the proof-size
dimension by twice `MaxCodeLen`). -/
theorem C3_compat_weight (maxCodeLen gasLimit : Nat) :
    compat_weight_limit maxCodeLen gasLimit = ⟨gasLimit, 2 * maxCodeLen⟩ ∧
    call_old_weight_gas maxCodeLen gasLimit = compat_weight_limit maxCodeLen gasLimit ∧
    instantiate_with_code_old_weight_gas maxCodeLen gasLimit =
      compat_weight_limit maxCodeLen gasLimit ∧
    instantiate_old_weight_gas maxCodeLen gasLimit = compat_weight_limit maxCodeLen gasLimit := by
  refine ⟨?_, rfl, rfl, rfl⟩
  simp [compat_weight_limit, Nat.mul_comm]

/-- Claim C4: an execution completing with the revert flag set is replaced by
the explicit `ContractReverted` error by the dispatchables `call`,
`instantiate_with_code` and `instantiate`, while the dry-run entry points
`bare_call` and `bare_instantiate` keep the `Ok` with the revert flag. -/
theorem C4_revert_promotion (r : ExecReturnValue) (a : Nat) (h : did_revert r = true) :
    call_result (Except.ok r) =
      Except.error ⟨DispatchErr.Contracts ContractsErr.ContractReverted, ErrorOrigin.Caller⟩ ∧
    instantiate_with_code_result (Except.ok (a, r)) =
      Except.error ⟨DispatchErr.Contracts ContractsErr.ContractReverted, ErrorOrigin.Caller⟩ ∧
    instantiate_result (Except.ok (a, r)) =
      Except.error ⟨DispatchErr.Contracts ContractsErr.ContractReverted, ErrorOrigin.Caller⟩ ∧
    bare_call_result (Except.ok r) = Except.ok r ∧
    bare_instantiate_result (Except.ok (a, r)) = Except.ok (a, r) := by
  refine ⟨?_, ?_, ?_, rfl, rfl⟩ <;>
    simp [call_result, instantiate_result, instantiate_with_code_result, h]

/-- Claim C4, witness: a return value with the revert bit set (flags 1). -/
theorem C4_revert_promotion_witness :
    call_result (Except.ok ⟨1, []⟩) =
      Except.error ⟨DispatchErr.Contracts ContractsErr.ContractReverted, ErrorOrigin.Caller⟩ ∧
    instantiate_with_code_result (Except.ok (0, ⟨1, []⟩)) =
      Except.error ⟨DispatchErr.Contracts ContractsErr.ContractReverted, ErrorOrigin.Caller⟩ ∧
    instantiate_result (Except.ok (0, ⟨1, []⟩)) =
      Except.error ⟨DispatchErr.Contracts ContractsErr.ContractReverted, ErrorOrigin.Caller⟩ ∧
    bare_call_result (Except.ok ⟨1, []⟩) = Except.ok ⟨1, []⟩ ∧
    bare_instantiate_result (Except.ok (0, ⟨1, []⟩)) = Except.ok (0, ⟨1, []⟩) :=
  C4_revert_promotion ⟨1, []⟩ 0 (by decide)

/-- Claim C6, counterexample. The claim words the startup assertion as the
exact product inequality `(MaxCodeLen*72 + S + H) * D < MAX_RUNTIME_MEM/2`.
With `MaxCodeLen = 902940`, heap 1 MiB, call-stack size 0 and debug buffer
300 the product inequality holds (67108832 < 67108864) but the source's
saturating flooring computation gives `code_len_limit = 902940` and its
strict assertion `MaxCodeLen < code_len_limit` fails, so the hook panics. -/
theorem C6_counterexample :
    integritySpecFormula 902940 1048576 0 300 ∧
      integrity_test_passes 902940 1048576 0 300 = false := by
  constructor
  · constructor <;> decide
  · decide

/-- Claim C6, amended: `integrity_test` passes exactly when
`MaxCodeLen < ((MAX_RUNTIME_MEM/2) / D - H - S) / 72` under flooring
(saturating) u32 arithmetic, with D = CallStack::size()+1, S = 1 MiB and
H the schedule's maximum memory size, and `MaxDebugBufferLen > 256`. -/
theorem C6_integrity_saturating (maxCodeLen maxHeapSize callStackSize maxDebugBufferLen : Nat) :
    integrity_test_passes maxCodeLen maxHeapSize callStackSize maxDebugBufferLen = true ↔
      (maxCodeLen <
          (1024 * 1024 * 128 / 2 / (callStackSize + 1) - maxHeapSize - 1024 * 1024) / 72
        ∧ 256 < maxDebugBufferLen) := by
  simp [integrity_test_passes]

/-- Claim C2, counterexample. The claim says the dry-run entry points never
mutate persisted state and in particular that `bare_upload_code` persists
nothing. Uploading a freshly validated module (code hash 1, open deposit 5)
from an account with balance 100 stores the code record: `PristineCode` /
`CodeStorage` / `OwnerInfoOf` gain an entry under hash 1 that was absent
before, and the deposit is moved from free to reserved balance. -/
theorem C2_counterexample :
    stFresh.codes 1 = none ∧
    (bare_upload_code stFresh 0 (Except.ok mFresh) none).2.codes 1 = some ⟨0, 5, 0, 9⟩ ∧
    (bare_upload_code stFresh 0 (Except.ok mFresh) none).2.free 0 = 95 ∧
    (bare_upload_code stFresh 0 (Except.ok mFresh) none).2.reserved 0 = 5 := by
  refine ⟨rfl, ?_, ?_, ?_⟩ <;> decide

/-- Claim C2, amended: `bare_upload_code` persists: on its successful path it
stores the module's records and reserves the open deposit from the uploader,
while every one of its error paths — validation failure, a supplied deposit
limit below the open deposit, or an unpayable deposit — leaves the persisted
state unchanged. -/
theorem C2_upload_persists (st : ChainState) (o : Nat) (m : ValidatedModule)
    (e : DispatchErr) (l : Nat) :
    bare_upload_code st o (Except.error e) none = (Except.error e, st) ∧
    bare_upload_code st o (Except.error e) (some l) = (Except.error e, st) ∧
    (l < m.openDeposit →
      bare_upload_code st o (Except.ok m) (some l) =
        (Except.error (DispatchErr.Contracts ContractsErr.StorageDepositLimitExhausted), st)) ∧
    (st.codes m.codeHash = none → st.free o < m.openDeposit →
      bare_upload_code st o (Except.ok m) none =
        (Except.error (DispatchErr.Contracts ContractsErr.StorageDepositNotEnoughFunds), st)) ∧
    (st.codes m.codeHash = none → m.openDeposit ≤ st.free o →
      (bare_upload_code st o (Except.ok m) none).1 = Except.ok ⟨m.codeHash, m.openDeposit⟩ ∧
      (bare_upload_code st o (Except.ok m) none).2.codes m.codeHash =
        some ⟨o, m.openDeposit, 0, m.version⟩ ∧
      (∀ h2 : Nat, h2 ≠ m.codeHash →
        (bare_upload_code st o (Except.ok m) none).2.codes h2 = st.codes h2) ∧
      (bare_upload_code st o (Except.ok m) none).2.free o = st.free o - m.openDeposit ∧
      (bare_upload_code st o (Except.ok m) none).2.reserved o = st.reserved o + m.openDeposit ∧
      (bare_upload_code st o (Except.ok m) none).2.contracts = st.contracts ∧
      (bare_upload_code st o (Except.ok m) none).2.deletionQueue = st.deletionQueue ∧
      (bare_upload_code st o (Except.ok m) none).2.events = st.events) := by
  refine ⟨rfl, rfl, ?_, ?_, ?_⟩
  · intro hl
    simp [bare_upload_code, hl]
  · intro hc hf
    simp [bare_upload_code, uploadStore, storeModule, hc, Nat.not_le.mpr hf]
  · intro hc hf
    refine ⟨?_, ?_, ?_, ?_, ?_, ?_, ?_, ?_⟩ <;>
      simp [bare_upload_code, uploadStore, storeModule, hc, hf, updateMap, updateBal]
    intro h2 hne
    simp [hne]

/-- Claim C5: `on_initialize` processes the deletion queue only when the
queue length has reached `DeletionQueueDepth`, and then under the limit
`min(DeletionWeightLimit, max_block - current block weight)`; with a shorter
queue it performs no draining (the state is returned unchanged, for every
batch processor) and returns only the base weight; `on_idle` always processes
the queue under the remaining-weight budget. -/
theorem C5_deletion_hooks (pb : Weight → ChainState → ChainState × Weight)
    (p : Params) (cur remaining : Weight) (st : ChainState) :
    (st.deletionQueue.length < p.depth → on_initialize_with pb p cur st = (st, p.base)) ∧
    (p.depth ≤ st.deletionQueue.length →
      on_initialize_with pb p cur st =
        ((pb (weightMin p.dwl (weightSub p.maxBlock cur)) st).1,
          weightAdd (pb (weightMin p.dwl (weightSub p.maxBlock cur)) st).2 p.base)) ∧
    on_idle_with pb p remaining st = ((pb remaining st).1, weightAdd (pb remaining st).2 p.base) := by
  refine ⟨?_, ?_, rfl⟩
  · intro h
    unfold on_initialize_with
    rw [if_neg (by omega)]
  · intro h
    unfold on_initialize_with
    rw [if_pos h, weightMin_comm]

/-- Claim C7: `set_code` requires the root origin, fails with
`ContractNotFound` when the destination has no contract info, and otherwise
increments the refcount of the new code hash before `remove_user` decrements
the old one (the intermediate state `st1` exhibits the order), updates the
contract's code hash in place leaving every other address untouched, and
emits `ContractCodeUpdated` with the new and old hashes. -/
theorem C7_set_code (st : ChainState) (dest k2 : Nat) (c : ContractRec) (r2 : CodeRecord)
    (h1 : st.contracts dest = some c) (h2 : st.codes k2 = some r2) :
    (∀ o : OriginKind, o ≠ OriginKind.Root →
      set_code st o dest k2 = (Except.error DispatchErr.BadOrigin, st)) ∧
    (∀ st0 : ChainState, ∀ d2 : Nat, st0.contracts d2 = none →
      set_code st0 OriginKind.Root d2 k2 =
        (Except.error (DispatchErr.Contracts ContractsErr.ContractNotFound), st0)) ∧
    (set_code st OriginKind.Root dest k2).1 = Except.ok () ∧
    (set_code st OriginKind.Root dest k2).2.contracts dest = some ⟨c.trieId, k2⟩ ∧
    (∀ a : Nat, a ≠ dest →
      (set_code st OriginKind.Root dest k2).2.contracts a = st.contracts a) ∧
    (k2 ≠ c.codeHash →
      (set_code st OriginKind.Root dest k2).2.codes k2 =
        some ⟨r2.owner, r2.deposit, r2.refcount + 1, r2.version⟩) ∧
    (k2 ≠ c.codeHash →
      (set_code st OriginKind.Root dest k2).2.codes c.codeHash =
        (st.codes c.codeHash).map (fun r1 => ⟨r1.owner, r1.deposit, r1.refcount - 1, r1.version⟩)) ∧
    (set_code st OriginKind.Root dest k2).2.events =
      st.events ++ [EventRec.ContractCodeUpdated dest k2 c.codeHash] ∧
    (∃ st1 : ChainState, add_user st k2 = Except.ok st1 ∧
      st1.codes k2 = some ⟨r2.owner, r2.deposit, r2.refcount + 1, r2.version⟩ ∧
      (k2 ≠ c.codeHash → st1.codes c.codeHash = st.codes c.codeHash) ∧
      (set_code st OriginKind.Root dest k2).2.codes = (remove_user st1 c.codeHash).codes) := by
  have ha : add_user st k2 =
      Except.ok { st with
        codes := updateMap st.codes k2 (some ⟨r2.owner, r2.deposit, r2.refcount + 1, r2.version⟩) } := by
    simp [add_user, h2]
  refine ⟨?_, ?_, ?_, ?_, ?_, ?_, ?_, ?_, ?_⟩
  · intro o ho
    cases o with
    | Root => exact absurd rfl ho
    | Signed w => rfl
    | NoOrigin => rfl
  · intro st0 d2 hd
    simp [set_code, hd]
  · simp [set_code, h1, ha]
  · simp [set_code, h1, ha, updateContracts]
  · intro a hne
    simp [set_code, h1, ha, updateContracts, hne, remove_user]
    split <;> rfl
  · intro hne
    simp only [set_code, h1, ha]
    cases hk : st.codes c.codeHash with
    | none => simp [remove_user, updateMap, hk, Ne.symm hne]
    | some r1 => simp [remove_user, updateMap, hk, hne, Ne.symm hne]
  · intro hne
    simp only [set_code, h1, ha]
    cases hk : st.codes c.codeHash with
    | none => simp [remove_user, updateMap, hk, Ne.symm hne]
    | some r1 => simp [remove_user, updateMap, hk, Ne.symm hne]
  · simp [set_code, h1, ha, remove_user]
    split <;> rfl
  · refine ⟨_, ha, ?_, ?_, ?_⟩
    · simp [updateMap]
    · intro hne
      simp [updateMap, Ne.symm hne]
    · simp [set_code, h1, ha]

/-- Claim C7, witness: root `set_code` on the contract at account 3, moving
it from code hash 10 to code hash 20 in `stSet`. -/
theorem C7_set_code_witness :
    (∀ o : OriginKind, o ≠ OriginKind.Root →
      set_code stSet o 3 20 = (Except.error DispatchErr.BadOrigin, stSet)) ∧
    (∀ st0 : ChainState, ∀ d2 : Nat, st0.contracts d2 = none →
      set_code st0 OriginKind.Root d2 20 =
        (Except.error (DispatchErr.Contracts ContractsErr.ContractNotFound), st0)) ∧
    (set_code stSet OriginKind.Root 3 20).1 = Except.ok () ∧
    (set_code stSet OriginKind.Root 3 20).2.contracts 3 = some ⟨[1], 20⟩ ∧
    (∀ a : Nat, a ≠ 3 → (set_code stSet OriginKind.Root 3 20).2.contracts a = stSet.contracts a) ∧
    (20 ≠ (10 : Nat) →
      (set_code stSet OriginKind.Root 3 20).2.codes 20 = some ⟨7, 4, 1, 1⟩) ∧
    (20 ≠ (10 : Nat) →
      (set_code stSet OriginKind.Root 3 20).2.codes 10 =
        (stSet.codes 10).map (fun r1 => ⟨r1.owner, r1.deposit, r1.refcount - 1, r1.version⟩)) ∧
    (set_code stSet OriginKind.Root 3 20).2.events =
      stSet.events ++ [EventRec.ContractCodeUpdated 3 20 10] ∧
    (∃ st1 : ChainState, add_user stSet 20 = Except.ok st1 ∧
      st1.codes 20 = some ⟨7, 4, 1, 1⟩ ∧
      (20 ≠ (10 : Nat) → st1.codes 10 = stSet.codes 10) ∧
      (set_code stSet OriginKind.Root 3 20).2.codes = (remove_user st1 10).codes) :=
  C7_set_code stSet 3 20 ⟨[1], 10⟩ ⟨7, 4, 0, 1⟩ (by decide) (by decide)

/-- Claim C8, counterexample. The claim says that whenever validation
succeeds and the deposit-limit check passes, the module is stored. With a
validated module of open deposit 5, no supplied limit, and an uploader whose
free balance is 0, both premises hold, yet nothing is stored: reserving the
deposit fails and the call returns `StorageDepositNotEnoughFunds`. -/
theorem C8_counterexample :
    (bare_upload_code stPoor 0 (Except.ok mPoor) none).1 =
      Except.error (DispatchErr.Contracts ContractsErr.StorageDepositNotEnoughFunds) ∧
    (bare_upload_code stPoor 0 (Except.ok mPoor) none).2.codes 2 = none := by
  exact ⟨rfl, rfl⟩

/-- Claim C8, amended: a supplied `storage_deposit_limit` below the open
deposit of the validated module fails with `StorageDepositLimitExhausted`
and nothing is stored; when validation succeeds, the limit check passes and
the open deposit can be reserved from the uploader, the module is stored and
the returned value carries its code hash and that deposit; when the deposit
cannot be reserved the call fails with `StorageDepositNotEnoughFunds` and
nothing is stored. -/
theorem C8_upload_limit (st : ChainState) (o : Nat) (m : ValidatedModule) (l : Nat) :
    (l < m.openDeposit →
      bare_upload_code st o (Except.ok m) (some l) =
        (Except.error (DispatchErr.Contracts ContractsErr.StorageDepositLimitExhausted), st)) ∧
    (m.openDeposit ≤ l → st.codes m.codeHash = none → m.openDeposit ≤ st.free o →
      (bare_upload_code st o (Except.ok m) (some l)).1 = Except.ok ⟨m.codeHash, m.openDeposit⟩ ∧
      (bare_upload_code st o (Except.ok m) (some l)).2.codes m.codeHash =
        some ⟨o, m.openDeposit, 0, m.version⟩) ∧
    (m.openDeposit ≤ l → st.codes m.codeHash = none → st.free o < m.openDeposit →
      bare_upload_code st o (Except.ok m) (some l) =
        (Except.error (DispatchErr.Contracts ContractsErr.StorageDepositNotEnoughFunds), st)) := by
  refine ⟨?_, ?_, ?_⟩
  · intro hl
    simp [bare_upload_code, hl]
  · intro hl hc hf
    constructor <;>
      simp [bare_upload_code, Nat.not_lt.mpr hl, uploadStore, storeModule, hc, hf, updateMap]
  · intro hl hc hf
    simp [bare_upload_code, Nat.not_lt.mpr hl, uploadStore, storeModule, hc, Nat.not_le.mpr hf]

/-- Claim C9: from any state whose deletion queue respects the bound
`DeletionQueueDepth`, every sequence of operations (terminations enqueueing
tries, both block hooks with the concrete lazy drain, `set_code`, uploads)
preserves the bound, and enqueueing a terminated contract's trie when the
queue is at capacity fails with `DeletionQueueFull`, leaving the queue
unchanged. -/
theorem C9_queue_bound (p : Params) (ops : List Op) (st : ChainState) (e : DelEntry)
    (h : st.deletionQueue.length ≤ p.depth) :
    (applyOps p ops st).deletionQueue.length ≤ p.depth ∧
    (p.depth ≤ st.deletionQueue.length →
      queue_trie_for_deletion p st e =
        (Except.error (DispatchErr.Contracts ContractsErr.DeletionQueueFull), st)) := by
  constructor
  · exact applyOps_bound p ops st h
  · intro h2
    unfold queue_trie_for_deletion
    rw [if_neg (by omega)]

/-- Claim C9, witness: a queue at capacity 2 of depth 2, after one idle
drain, and the rejected enqueue of trie [3]. -/
theorem C9_queue_bound_witness :
    (applyOps pWitness [Op.runIdle ⟨5, 0⟩] stQueue).deletionQueue.length ≤ pWitness.depth ∧
    (pWitness.depth ≤ stQueue.deletionQueue.length →
      queue_trie_for_deletion pWitness stQueue ⟨[3], 1⟩ =
        (Except.error (DispatchErr.Contracts ContractsErr.DeletionQueueFull), stQueue)) :=
  C9_queue_bound pWitness [Op.runIdle ⟨5, 0⟩] stQueue ⟨[3], 1⟩ (by decide)

/-- Claim C10: `get_storage` returns `DoesntExist` for every address without
contract info, `KeyDecodingFailed` for a key longer than `MaxStorageKeyLen`
(the trie is not consulted), and otherwise the optional value read from the
contract's child trie; being a pure read it mutates nothing (the embedding
returns no state because the source writes none). -/
theorem C10_get_storage (mk : Nat) (st : ChainState) (a : Nat) (k : List Nat)
    (c : ContractRec) (h1 : st.contracts a = some c) :
    (∀ st0 : ChainState, ∀ a2 : Nat, ∀ k2 : List Nat, st0.contracts a2 = none →
      get_storage mk st0 a2 k2 = Except.error ContractAccessError.DoesntExist) ∧
    (mk < k.length → get_storage mk st a k = Except.error ContractAccessError.KeyDecodingFailed) ∧
    (k.length ≤ mk → get_storage mk st a k = Except.ok (st.childTrie c.trieId k)) := by
  refine ⟨?_, ?_, ?_⟩
  · intro st0 a2 k2 hd
    simp [get_storage, hd]
  · intro hk
    simp [get_storage, h1, Nat.not_le.mpr hk]
  · intro hk
    simp [get_storage, h1, hk]

/-- Claim C10, witness: the contract at account 3 of `stGet`, key [9] within
the bound 8, and the missing contract cases at concrete inputs. -/
theorem C10_get_storage_witness :
    (∀ st0 : ChainState, ∀ a2 : Nat, ∀ k2 : List Nat, st0.contracts a2 = none →
      get_storage 8 st0 a2 k2 = Except.error ContractAccessError.DoesntExist) ∧
    ((8 : Nat) < [(9 : Nat)].length →
      get_storage 8 stGet 3 [9] = Except.error ContractAccessError.KeyDecodingFailed) ∧
    ([(9 : Nat)].length ≤ 8 →
      get_storage 8 stGet 3 [9] = Except.ok (stGet.childTrie (⟨[1], 10⟩ : ContractRec).trieId [9])) :=
  C10_get_storage 8 stGet 3 [9] ⟨[1], 10⟩ (by decide)

end Contracts
